import Mathlib

/-!
Verification of `deploy.py` from abikesa/graduation.

The script is a sequential deployment driver for a Jupyter-Book static site.
We embed it shallowly in two layers:

1. a model of directory trees together with the behaviour of `diff -r`
   (the structural comparison used at line 102 of `deploy.py`), and
2. a model of `main` itself (`mainRun`) as a pure function from an
   environment of prompt inputs and external-command outcomes to the trace
   of commands the script issues, the final process outcome, and whether
   the temporary worktree directory `/tmp/temp-ghp-check` is still present.
-/

namespace Deploy
mutual

/-- A directory tree in canonical on-disk form: directory entries are kept
in strictly increasing name order (the order in which `diff -r` walks a
directory).  A file carries its byte content and a modification time; the
mtime field exists precisely so that we can state that the comparison
ignores it. -/
inductive FSTree where
  | file (content : List Nat) (mtime : Nat) : FSTree
  | dir (entries : Entries) : FSTree

/-- The entry list of a directory, as a mutual inductive so that every
function below is structurally recursive and computable by the kernel. -/
inductive Entries where
  | nil : Entries
  | cons (name : String) (tree : FSTree) (rest : Entries) : Entries

end

/-- Plain list-style induction for `Entries` (the mutual recursor has two
motives; this wraps it with a trivial motive on trees). -/
theorem Entries.inductionOn (motive : Entries → Prop) (hnil : motive Entries.nil)
    (hcons : ∀ n t r, motive r → motive (Entries.cons n t r)) : ∀ es, motive es :=
  fun es =>
    @Entries.rec (fun _ => True) motive (fun _ _ => trivial) (fun _ _ => trivial)
      hnil (fun n t r _ hr => hcons n t r hr) es

mutual

/-- Return status of `diff -r left right` as a Boolean: `true` means exit
status 0 (no difference reported).  Two files compare equal when their byte
contents are equal — the mtime is not inspected.  Two directories compare
equal when their (sorted) entry lists match name-for-name with equal
subtrees; an entry present on one side only, or a file/directory kind
mismatch, is a difference. -/
def diffTrees : FSTree → FSTree → Bool
  | FSTree.file c1 _, FSTree.file c2 _ => c1 == c2
  | FSTree.dir e1, FSTree.dir e2 => diffEntries e1 e2
  | FSTree.file _ _, FSTree.dir _ => false
  | FSTree.dir _, FSTree.file _ _ => false

/-- Comparison of two sorted directory-entry lists, as `diff -r` performs
it: names must agree position by position and the subtrees must compare
equal. -/
def diffEntries : Entries → Entries → Bool
  | Entries.nil, Entries.nil => true
  | Entries.cons n1 s1 r1, Entries.cons n2 s2 r2 =>
      n1 == n2 && diffTrees s1 s2 && diffEntries r1 r2
  | Entries.nil, Entries.cons _ _ _ => false
  | Entries.cons _ _ _, Entries.nil => false

end

/-- Integer return code of `diff -r` on the two trees: 0 when identical,
1 when differences were found. -/
def diffInt (t1 t2 : FSTree) : Int := if diffTrees t1 t2 then 0 else 1

/-- First entry of the list carrying the given name, if any. -/
def findEntry : Entries → String → Option FSTree
  | Entries.nil, _ => none
  | Entries.cons m s r, n => if m = n then some s else findEntry r n

/-- Resolve a relative path inside a tree.  `none` means the path does not
exist; `some none` means it names a directory; `some (some c)` means it
names a file with byte content `c`.  Note the result never mentions the
mtime: "identical relative paths with identical file byte-content" is the
statement that the two `lookupPath` functions agree. -/
def lookupPath : FSTree → List String → Option (Option (List Nat))
  | FSTree.file c _, [] => some (some c)
  | FSTree.file _ _, _ :: _ => none
  | FSTree.dir _, [] => some none
  | FSTree.dir es, n :: p =>
      match findEntry es n with
      | none => none
      | some s => lookupPath s p

/-- Kernel-computable strict lexicographic order on strings (the standard
`String` order, decided through the character list). -/
def strLt (a b : String) : Bool := decide (a.data < b.data)

/-- The computable order agrees with the standard `String` order. -/
theorem strLt_iff (a b : String) : strLt a b = true ↔ a < b := by
  rw [strLt, String.lt_iff_toList_lt]
  simp [String.toList]

/-- Every name in the entry list is strictly greater than `n`. -/
def allKeysGt (n : String) : Entries → Bool
  | Entries.nil => true
  | Entries.cons m _ r => strLt n m && allKeysGt n r

/-- Directory-entry names are strictly increasing. -/
def keysSorted : Entries → Bool
  | Entries.nil => true
  | Entries.cons _ _ Entries.nil => true
  | Entries.cons a _ (Entries.cons b s r) =>
      strLt a b && keysSorted (Entries.cons b s r)

mutual

/-- Well-formed canonical tree: every directory lists its entries in
strictly increasing name order. -/
def wfTree : FSTree → Bool
  | FSTree.file _ _ => true
  | FSTree.dir es => keysSorted es && wfEntries es

/-- All subtrees of an entry list are well formed. -/
def wfEntries : Entries → Bool
  | Entries.nil => true
  | Entries.cons _ s r => wfTree s && wfEntries r

end

/-- Root of a tree always resolves: a file to its content, a directory to
`some none`. -/
theorem lookupPath_nil_isSome (t : FSTree) : (lookupPath t []).isSome = true := by
  cases t <;> simp [lookupPath]

/-- A name below every key of the list is not found. -/
theorem findEntry_none_of_allGt (n : String) :
    ∀ es : Entries, allKeysGt n es = true → findEntry es n = none := by
  intro es
  induction es using Entries.inductionOn with
  | hnil => intro _; rfl
  | hcons m s r ih =>
    intro h
    simp only [allKeysGt, Bool.and_eq_true, strLt_iff] at h
    have hmn : ¬ m = n := fun he => absurd (he ▸ h.1) (lt_irrefl n)
    simp only [findEntry, if_neg hmn]
    exact ih h.2

/-- When every name in the entry list is strictly greater than `n`, looking
up a path starting with `n` fails. -/
theorem lookupPath_none_of_allGt (n : String) (q : List String) (es : Entries)
    (h : allKeysGt n es = true) : lookupPath (FSTree.dir es) (n :: q) = none := by
  simp [lookupPath, findEntry_none_of_allGt n es h]

/-- Being strictly above a key list is downward closed. -/
theorem allKeysGt_of_lt (a b : String) (hab : a < b) :
    ∀ es : Entries, allKeysGt b es = true → allKeysGt a es = true := by
  intro es
  induction es using Entries.inductionOn with
  | hnil => intro _; rfl
  | hcons m s r ih =>
    intro h
    simp only [allKeysGt, Bool.and_eq_true, strLt_iff] at h ⊢
    exact ⟨lt_trans hab h.1, ih h.2⟩

/-- In a sorted entry list the head name is strictly below every tail
name. -/
theorem keysSorted_allGt :
    ∀ (r : Entries) (a : String) (s0 : FSTree),
      keysSorted (Entries.cons a s0 r) = true → allKeysGt a r = true := by
  intro r
  induction r using Entries.inductionOn with
  | hnil => intro a s0 _; rfl
  | hcons b sb r ih =>
    intro a s0 h
    simp only [keysSorted, Bool.and_eq_true, strLt_iff] at h
    simp only [allKeysGt, Bool.and_eq_true, strLt_iff]
    exact ⟨h.1, allKeysGt_of_lt a b h.1 r (ih b sb h.2)⟩

/-- The tail of a sorted entry list is sorted. -/
theorem keysSorted_tail (a : String) (s : FSTree) (r : Entries)
    (h : keysSorted (Entries.cons a s r) = true) : keysSorted r = true := by
  cases r with
  | nil => rfl
  | cons b sb tl =>
    simp only [keysSorted, Bool.and_eq_true] at h
    exact h.2

/-- When the entry lists compare equal under `diffEntries`, a name lookup
either fails on both sides or finds subtrees that compare equal. -/
theorem diffEntries_findEntry (n : String) :
    ∀ e1 e2 : Entries, diffEntries e1 e2 = true →
      (findEntry e1 n = none ∧ findEntry e2 n = none) ∨
      (∃ s1 s2, findEntry e1 n = some s1 ∧ findEntry e2 n = some s2 ∧
        diffTrees s1 s2 = true) := by
  intro e1
  induction e1 using Entries.inductionOn with
  | hnil =>
    intro e2 h
    cases e2 with
    | nil => exact Or.inl ⟨rfl, rfl⟩
    | cons m2 s2 r2 => simp [diffEntries] at h
  | hcons m1 s1 r1 ih =>
    intro e2 h
    cases e2 with
    | nil => simp [diffEntries] at h
    | cons m2 s2 r2 =>
      simp only [diffEntries, Bool.and_eq_true, beq_iff_eq] at h
      obtain ⟨⟨hname, hsub⟩, htail⟩ := h
      subst hname
      by_cases hm : m1 = n
      · exact Or.inr ⟨s1, s2, by simp [findEntry, hm], by simp [findEntry, hm], hsub⟩
      · have := ih r2 htail
        simpa only [findEntry, if_neg hm] using this

/-- If `diff -r` reports no difference then every relative path resolves
identically in the two trees (one direction of the correctness of the
structural comparison; note it holds with no well-formedness assumption). -/
theorem diffTrees_lookup_eq (p : List String) :
    ∀ t1 t2 : FSTree, diffTrees t1 t2 = true → lookupPath t1 p = lookupPath t2 p := by
  induction p with
  | nil =>
    intro t1 t2 h
    cases t1 with
    | file c1 m1 =>
      cases t2 with
      | file c2 m2 =>
        simp only [diffTrees, beq_iff_eq] at h
        simp [lookupPath, h]
      | dir e2 => simp [diffTrees] at h
    | dir e1 =>
      cases t2 with
      | file c2 m2 => simp [diffTrees] at h
      | dir e2 => simp [lookupPath]
  | cons n q ih =>
    intro t1 t2 h
    cases t1 with
    | file c1 m1 =>
      cases t2 with
      | file c2 m2 => simp [lookupPath]
      | dir e2 => simp [diffTrees] at h
    | dir e1 =>
      cases t2 with
      | file c2 m2 => simp [diffTrees] at h
      | dir e2 =>
        have h2 : diffEntries e1 e2 = true := h
        rcases diffEntries_findEntry n e1 e2 h2 with ⟨hn1, hn2⟩ | ⟨s1, s2, hs1, hs2, hsub⟩
        · simp [lookupPath, hn1, hn2]
        · simp only [lookupPath, hs1, hs2]
          exact ih s1 s2 hsub

/-- Every tree and entry list has positive size (used for the bounded
induction below). -/
theorem FSTree.one_le_sizeOf (t : FSTree) : 1 ≤ sizeOf t := by
  cases t with
  | file c m => simp only [FSTree.file.sizeOf_spec]; omega
  | dir es => simp only [FSTree.dir.sizeOf_spec]; omega

/-- Converse direction of the correctness of the structural comparison: on
canonical (sorted) trees, if every relative path resolves identically then
`diff -r` reports no difference.  Stated with an explicit size bound to
drive the induction. -/
theorem lookup_eq_diffTrees_bounded :
    ∀ (k : Nat) (t1 t2 : FSTree), sizeOf t1 + sizeOf t2 ≤ k →
      wfTree t1 = true → wfTree t2 = true →
      (∀ p, lookupPath t1 p = lookupPath t2 p) → diffTrees t1 t2 = true := by
  intro k
  induction k with
  | zero =>
    intro t1 t2 hs _ _ _
    have h1 := FSTree.one_le_sizeOf t1
    have h2 := FSTree.one_le_sizeOf t2
    omega
  | succ k ih =>
    intro t1 t2 hs w1 w2 h
    cases t1 with
    | file c1 m1 =>
      cases t2 with
      | file c2 m2 =>
        have hc := h []
        simp only [lookupPath, Option.some.injEq] at hc
        simp [diffTrees, hc]
      | dir e2 =>
        have hc := h []
        simp [lookupPath] at hc
    | dir e1 =>
      cases t2 with
      | file c2 m2 =>
        have hc := h []
        simp [lookupPath] at hc
      | dir e2 =>
        simp only [wfTree, Bool.and_eq_true] at w1 w2
        obtain ⟨hsort1, hwe1⟩ := w1
        obtain ⟨hsort2, hwe2⟩ := w2
        cases e1 with
        | nil =>
          cases e2 with
          | nil => rfl
          | cons m2 s2 tl2 =>
            have hc := h [m2]
            have hl : lookupPath (FSTree.dir Entries.nil) [m2] = none := by
              simp [lookupPath, findEntry]
            have hr : lookupPath (FSTree.dir (Entries.cons m2 s2 tl2)) [m2]
                = lookupPath s2 [] := by
              simp [lookupPath, findEntry]
            rw [hl, hr] at hc
            have := lookupPath_nil_isSome s2
            rw [← hc] at this
            simp at this
        | cons m1 s1 tl1 =>
          cases e2 with
          | nil =>
            have hc := h [m1]
            have hl : lookupPath (FSTree.dir (Entries.cons m1 s1 tl1)) [m1]
                = lookupPath s1 [] := by
              simp [lookupPath, findEntry]
            have hr : lookupPath (FSTree.dir Entries.nil) [m1] = none := by
              simp [lookupPath, findEntry]
            rw [hl, hr] at hc
            have := lookupPath_nil_isSome s1
            rw [hc] at this
            simp at this
          | cons m2 s2 tl2 =>
            simp only [wfEntries, Bool.and_eq_true] at hwe1 hwe2
            obtain ⟨hws1, hwr1⟩ := hwe1
            obtain ⟨hws2, hwr2⟩ := hwe2
            have hkey : m1 = m2 := by
              rcases lt_trichotomy m1 m2 with hlt | heq | hgt
              · exfalso
                have hc := h [m1]
                have hl : lookupPath (FSTree.dir (Entries.cons m1 s1 tl1)) [m1]
                    = lookupPath s1 [] := by
                  simp [lookupPath, findEntry]
                have hne : ¬ m2 = m1 := ne_of_gt hlt
                have hr : lookupPath (FSTree.dir (Entries.cons m2 s2 tl2)) [m1] = none := by
                  have hgt2 : allKeysGt m1 tl2 = true :=
                    allKeysGt_of_lt m1 m2 hlt tl2 (keysSorted_allGt tl2 m2 s2 hsort2)
                  simp [lookupPath, findEntry, if_neg hne,
                    findEntry_none_of_allGt m1 tl2 hgt2]
                rw [hl, hr] at hc
                have := lookupPath_nil_isSome s1
                rw [hc] at this
                simp at this
              · exact heq
              · exfalso
                have hc := h [m2]
                have hr : lookupPath (FSTree.dir (Entries.cons m2 s2 tl2)) [m2]
                    = lookupPath s2 [] := by
                  simp [lookupPath, findEntry]
                have hne : ¬ m1 = m2 := ne_of_gt hgt
                have hl : lookupPath (FSTree.dir (Entries.cons m1 s1 tl1)) [m2] = none := by
                  have hgt1 : allKeysGt m2 tl1 = true :=
                    allKeysGt_of_lt m2 m1 hgt tl1 (keysSorted_allGt tl1 m1 s1 hsort1)
                  simp [lookupPath, findEntry, if_neg hne,
                    findEntry_none_of_allGt m2 tl1 hgt1]
                rw [hl, hr] at hc
                have := lookupPath_nil_isSome s2
                rw [← hc] at this
                simp at this
            subst hkey
            have hsub : diffTrees s1 s2 = true := by
              have hsz : sizeOf s1 + sizeOf s2 ≤ k := by
                simp only [FSTree.dir.sizeOf_spec, Entries.cons.sizeOf_spec] at hs
                omega
              refine ih s1 s2 hsz hws1 hws2 (fun p => ?_)
              have hc := h (m1 :: p)
              simpa only [lookupPath, findEntry, if_pos rfl] using hc
            have htail : diffTrees (FSTree.dir tl1) (FSTree.dir tl2) = true := by
              have hsz : sizeOf (FSTree.dir tl1) + sizeOf (FSTree.dir tl2) ≤ k := by
                simp only [FSTree.dir.sizeOf_spec, Entries.cons.sizeOf_spec] at hs ⊢
                omega
              have hw1 : wfTree (FSTree.dir tl1) = true := by
                simp [wfTree, keysSorted_tail _ _ _ hsort1, hwr1]
              have hw2 : wfTree (FSTree.dir tl2) = true := by
                simp [wfTree, keysSorted_tail _ _ _ hsort2, hwr2]
              refine ih (FSTree.dir tl1) (FSTree.dir tl2) hsz hw1 hw2 (fun p => ?_)
              match p with
              | [] => simp [lookupPath]
              | n :: q =>
                by_cases hn : m1 = n
                · subst hn
                  rw [lookupPath_none_of_allGt m1 q tl1 (keysSorted_allGt tl1 m1 s1 hsort1),
                    lookupPath_none_of_allGt m1 q tl2 (keysSorted_allGt tl2 m1 s2 hsort2)]
                · have hc := h (n :: q)
                  simp only [lookupPath, findEntry, if_neg hn] at hc
                  exact hc
            have htail2 : diffEntries tl1 tl2 = true := htail
            simp [diffTrees, diffEntries, hsub, htail2]

/-- Converse correctness of the structural comparison, wrapped without the
size bound: path-wise agreement of two canonical trees forces `diff -r`
exit status 0. -/
theorem lookup_eq_diffTrees (t1 t2 : FSTree) (w1 : wfTree t1 = true)
    (w2 : wfTree t2 = true) (h : ∀ p, lookupPath t1 p = lookupPath t2 p) :
    diffTrees t1 t2 = true :=
  lookup_eq_diffTrees_bounded (sizeOf t1 + sizeOf t2) t1 t2 le_rfl w1 w2 h
/-! ## The script itself

`mainRun` embeds the body of `main` in `deploy.py`.  Every external command
the script issues becomes an `Event` carrying exactly the values the
corresponding f-string interpolates; prompt answers and the outcomes of the
external commands are supplied by an `Env`.  Failures the script swallows
with a bare `except:` (lines 54-57, 60-63, 95-98, 114-117, 124-129) have no
control effect beyond what the handler body does; failures the script does
not catch (`ghp-import`, `git worktree remove` inside the `finally`, and
`git add`) propagate out of `main` as an uncaught `CalledProcessError`,
which terminates the Python process with a nonzero status. -/

/-- The value of the `tmp_dir` variable at line 94 of `deploy.py`. -/
def tmp_dir : String := "/tmp/temp-ghp-check"

/-- One external action of the script, with the interpolated arguments of
the corresponding command line.  `pushSkipMsg` records the bare-except
handler at lines 128-129 firing (it prints "Nothing committed. Skipping
push.").  `rmtreeCall` is the `shutil.rmtree(..., ignore_errors=True)` at
line 110. -/
inductive Event where
  | gitCurrentBranch : Event
  | gitVerify (branch : String) : Event
  | jbClean : Event
  | bashClean : Event
  | jbBuild : Event
  | worktreeAdd (path : String) (branch : String) : Event
  | diffCmd (left : String) (right : String) : Event
  | publish (remote : String) (dir : String) : Event
  | worktreeRemove (path : String) : Event
  | rmtreeCall (path : String) : Event
  | plantFlicks : Event
  | gitAdd : Event
  | gitCommit (msg : String) : Event
  | gitPush (remote : String) (branch : String) : Event
  | pushSkipMsg : Event
deriving DecidableEq

/-- Prompt answers and external-command outcomes for one run of the
script.  A `true` in an `Ok` field means the corresponding subprocess
exited with status 0 (so `subprocess.run(..., check=True)` does not
raise).  `branchInput = none` means the user accepted the default at the
branch prompt.  `tmpPreexists` is whether `/tmp/temp-ghp-check` already
existed on disk before the run (a leftover of a previous failed run).
`diffCode` is the integer return status of `diff -r`.  The fields
`jbCleanOk`, `bashCleanOk` and `plantOk` are recorded for completeness but
can have no observable effect: those failures are swallowed by bare
`except:` handlers that only print a message. -/
structure Env where
  commitMessage : String
  gitRemote : String
  ghpRemote : String
  currentBranchOut : String
  branchInput : Option String
  branchExistsRes : Bool
  confirmInput : String
  jbCleanOk : Bool
  bashCleanExists : Bool
  bashCleanOk : Bool
  jbBuildOk : Bool
  worktreeAddOk : Bool
  tmpPreexists : Bool
  diffCode : Int
  ghpImportOk : Bool
  worktreeRemoveOk : Bool
  plantOk : Bool
  gitAddOk : Bool
  commitOk : Bool
  pushOk : Bool
deriving DecidableEq

/-- Embedding of the Python idiom `s or d` for strings: the empty string
is falsy, so it yields the default. -/
def pyOrStr (s d : String) : String := if s = "" then d else s

/-- Default offered at the branch prompt, line 37:
`run("git branch --show-current", capture_output=True) or "main"`. -/
def promptDefaultBranch (env : Env) : String := pyOrStr env.currentBranchOut "main"

/-- The branch name the prompt at line 38 returns: the typed input, or the
default when the user just presses enter. -/
def chosenBranch (env : Env) : String := env.branchInput.getD (promptDefaultBranch env)

/-- How the Python process ends: `exited n` is an explicit `sys.exit(n)`,
`raised` is an uncaught exception escaping `main` (the interpreter then
terminates with a nonzero status), `finished` is falling off the end of
`main` (process status 0). -/
inductive Outcome where
  | exited (code : Nat) : Outcome
  | raised : Outcome
  | finished : Outcome
deriving DecidableEq

/-- Result of a run: the sequence of external actions performed, how the
process ended, and whether `/tmp/temp-ghp-check` is present on disk at the
end. -/
structure RunResult where
  trace : List Event
  outcome : Outcome
  tmpPresent : Bool
deriving DecidableEq

/-- Lines 112-129 of `deploy.py`: plant flicks (failure swallowed), then
`git add .` (uncaught on failure), then the commit/push block whose bare
`except:` catches both a failing commit and a failing push. -/
def tailStages (env : Env) (b : String) (t : List Event) (tmpP : Bool) : RunResult :=
  let t1 := t ++ [Event.plantFlicks, Event.gitAdd]
  if env.gitAddOk = false then
    { trace := t1, outcome := Outcome.raised, tmpPresent := tmpP }
  else
    let t2 := t1 ++ [Event.gitCommit env.commitMessage]
    if env.commitOk then
      let t3 := t2 ++ [Event.gitPush env.gitRemote b]
      if env.pushOk then
        { trace := t3, outcome := Outcome.finished, tmpPresent := tmpP }
      else
        { trace := t3 ++ [Event.pushSkipMsg], outcome := Outcome.finished, tmpPresent := tmpP }
    else
      { trace := t2 ++ [Event.pushSkipMsg], outcome := Outcome.finished, tmpPresent := tmpP }

/-- The body of `main` (lines 30-129 of `deploy.py`).  Control flow:
branch validation and the `main`-confirmation can `sys.exit(1)`; a build
failure exits 1; the worktree-add failure is swallowed; the diff/publish
block runs only if the temporary directory exists, with a `finally` that
always runs `git worktree remove` and, if that does not raise, the
`rmtree`; an exception of `ghp-import` or of the worktree removal
propagates (uncaught) after the `finally` completes. -/
def mainRun (env : Env) : RunResult :=
  if env.branchExistsRes = false then
    { trace := [Event.gitCurrentBranch, Event.gitVerify (chosenBranch env)],
      outcome := Outcome.exited 1, tmpPresent := env.tmpPreexists }
  else if chosenBranch env = "main" ∧ env.confirmInput ≠ "confirm" then
    { trace := [Event.gitCurrentBranch, Event.gitVerify (chosenBranch env)],
      outcome := Outcome.exited 1, tmpPresent := env.tmpPreexists }
  else if env.jbBuildOk = false then
    { trace := [Event.gitCurrentBranch, Event.gitVerify (chosenBranch env), Event.jbClean]
        ++ (if env.bashCleanExists then [Event.bashClean] else []) ++ [Event.jbBuild],
      outcome := Outcome.exited 1, tmpPresent := env.tmpPreexists }
  else if env.worktreeAddOk || env.tmpPreexists then
    if env.worktreeRemoveOk = false then
      { trace := [Event.gitCurrentBranch, Event.gitVerify (chosenBranch env), Event.jbClean]
          ++ (if env.bashCleanExists then [Event.bashClean] else [])
          ++ [Event.jbBuild, Event.worktreeAdd tmp_dir "gh-pages",
            Event.diffCmd "_build/html" tmp_dir]
          ++ (if env.diffCode = 0 then ([] : List Event)
            else [Event.publish env.ghpRemote "_build/html"])
          ++ [Event.worktreeRemove tmp_dir],
        outcome := Outcome.raised, tmpPresent := true }
    else if decide (env.diffCode ≠ 0) && !env.ghpImportOk then
      { trace := [Event.gitCurrentBranch, Event.gitVerify (chosenBranch env), Event.jbClean]
          ++ (if env.bashCleanExists then [Event.bashClean] else [])
          ++ [Event.jbBuild, Event.worktreeAdd tmp_dir "gh-pages",
            Event.diffCmd "_build/html" tmp_dir]
          ++ (if env.diffCode = 0 then ([] : List Event)
            else [Event.publish env.ghpRemote "_build/html"])
          ++ [Event.worktreeRemove tmp_dir, Event.rmtreeCall tmp_dir],
        outcome := Outcome.raised, tmpPresent := false }
    else
      tailStages env (chosenBranch env)
        ([Event.gitCurrentBranch, Event.gitVerify (chosenBranch env), Event.jbClean]
          ++ (if env.bashCleanExists then [Event.bashClean] else [])
          ++ [Event.jbBuild, Event.worktreeAdd tmp_dir "gh-pages",
            Event.diffCmd "_build/html" tmp_dir]
          ++ (if env.diffCode = 0 then ([] : List Event)
            else [Event.publish env.ghpRemote "_build/html"])
          ++ [Event.worktreeRemove tmp_dir, Event.rmtreeCall tmp_dir])
        false
  else
    tailStages env (chosenBranch env)
      ([Event.gitCurrentBranch, Event.gitVerify (chosenBranch env), Event.jbClean]
        ++ (if env.bashCleanExists then [Event.bashClean] else [])
        ++ [Event.jbBuild, Event.worktreeAdd tmp_dir "gh-pages"])
      false

/-- Process exit status determined by an `Outcome`: an uncaught exception
makes the interpreter exit nonzero (1). -/
def exitCode : Outcome → Nat
  | Outcome.exited n => n
  | Outcome.raised => 1
  | Outcome.finished => 0

/-- Recognizer for the `ghp-import` publish action. -/
def isPublishEv : Event → Bool
  | Event.publish _ _ => true
  | _ => false

/-- Recognizer for the `diff -r` comparison action. -/
def isDiffEv : Event → Bool
  | Event.diffCmd _ _ => true
  | _ => false

/-- Recognizer for the `git worktree add` action. -/
def isWorktreeAddEv : Event → Bool
  | Event.worktreeAdd _ _ => true
  | _ => false

/-- Number of times the run invoked the publish operation. -/
def publishCount (env : Env) : Nat := ((mainRun env).trace.filter isPublishEv).length

/-- All the ways a run of the script ends with a nonzero process status:
the three explicit `sys.exit(1)` sites (missing branch, declined `main`
confirmation, build failure) plus the uncaught exceptions: a failure of
`git worktree remove` in the `finally`, a failure of `ghp-import` after a
detected change, and a failure of `git add`. -/
def fatalFailureB (env : Env) : Bool :=
  !env.branchExistsRes
    || decide (chosenBranch env = "main" ∧ env.confirmInput ≠ "confirm")
    || !env.jbBuildOk
    || ((env.worktreeAddOk || env.tmpPreexists)
        && (!env.worktreeRemoveOk || (decide (env.diffCode ≠ 0) && !env.ghpImportOk)))
    || !env.gitAddOk

/-- A benign run used by the concrete witnesses: every external command
succeeds, the user pushes to an existing branch `site`, the diff finds a
change. -/
def envBase : Env :=
  { commitMessage := "update site"
    gitRemote := "origin"
    ghpRemote := "origin"
    currentBranchOut := "site"
    branchInput := none
    branchExistsRes := true
    confirmInput := ""
    jbCleanOk := true
    bashCleanExists := false
    bashCleanOk := true
    jbBuildOk := true
    worktreeAddOk := true
    tmpPreexists := false
    diffCode := 1
    ghpImportOk := true
    worktreeRemoveOk := true
    plantOk := true
    gitAddOk := true
    commitOk := true
    pushOk := true }

/-- The run gets past branch validation, the `main` confirmation and the
build: the precondition for ever reaching the change-detection block. -/
def reachHyp (env : Env) : Prop :=
  env.branchExistsRes = true ∧
  ¬(chosenBranch env = "main" ∧ env.confirmInput ≠ "confirm") ∧
  env.jbBuildOk = true

instance (env : Env) : Decidable (reachHyp env) := by
  unfold reachHyp
  infer_instance

/-- Recognizer for the `git push` action. -/
def isPushEv : Event → Bool
  | Event.gitPush _ _ => true
  | _ => false

/-- Recognizer for the `git worktree remove` action. -/
def isWorktreeRemoveEv : Event → Bool
  | Event.worktreeRemove _ => true
  | _ => false

/-- Recognizer for the `shutil.rmtree` action. -/
def isRmtreeEv : Event → Bool
  | Event.rmtreeCall _ => true
  | _ => false

/-- Recognizer for the flick-planting helper invocation. -/
def isPlantEv : Event → Bool
  | Event.plantFlicks => true
  | _ => false

/-- Recognizer for the `git rev-parse --verify` branch check. -/
def isVerifyEv : Event → Bool
  | Event.gitVerify _ => true
  | _ => false

theorem tailStages_outcome (env : Env) (b : String) (t : List Event) (p : Bool) :
    (tailStages env b t p).outcome =
      (if env.gitAddOk = false then Outcome.raised else Outcome.finished) := by
  unfold tailStages
  repeat' split
  all_goals simp_all

theorem tailStages_tmpPresent (env : Env) (b : String) (t : List Event) (p : Bool) :
    (tailStages env b t p).tmpPresent = p := by
  unfold tailStages
  repeat' split
  all_goals simp_all

theorem tailStages_filter_publish (env : Env) (b : String) (t : List Event) (p : Bool) :
    (tailStages env b t p).trace.filter isPublishEv = t.filter isPublishEv := by
  unfold tailStages
  repeat' split
  all_goals simp [isPublishEv, List.filter_append]

theorem tailStages_filter_diff (env : Env) (b : String) (t : List Event) (p : Bool) :
    (tailStages env b t p).trace.filter isDiffEv = t.filter isDiffEv := by
  unfold tailStages
  repeat' split
  all_goals simp [isDiffEv, List.filter_append]

theorem tailStages_filter_worktreeAdd (env : Env) (b : String) (t : List Event) (p : Bool) :
    (tailStages env b t p).trace.filter isWorktreeAddEv = t.filter isWorktreeAddEv := by
  unfold tailStages
  repeat' split
  all_goals simp [isWorktreeAddEv, List.filter_append]

theorem tailStages_filter_worktreeRemove (env : Env) (b : String) (t : List Event) (p : Bool) :
    (tailStages env b t p).trace.filter isWorktreeRemoveEv = t.filter isWorktreeRemoveEv := by
  unfold tailStages
  repeat' split
  all_goals simp [isWorktreeRemoveEv, List.filter_append]

theorem tailStages_filter_rmtree (env : Env) (b : String) (t : List Event) (p : Bool) :
    (tailStages env b t p).trace.filter isRmtreeEv = t.filter isRmtreeEv := by
  unfold tailStages
  repeat' split
  all_goals simp [isRmtreeEv, List.filter_append]

theorem tailStages_filter_verify (env : Env) (b : String) (t : List Event) (p : Bool) :
    (tailStages env b t p).trace.filter isVerifyEv = t.filter isVerifyEv := by
  unfold tailStages
  repeat' split
  all_goals simp [isVerifyEv, List.filter_append]

theorem tailStages_filter_plant (env : Env) (b : String) (t : List Event) (p : Bool) :
    (tailStages env b t p).trace.filter isPlantEv = t.filter isPlantEv ++ [Event.plantFlicks] := by
  unfold tailStages
  repeat' split
  all_goals simp [isPlantEv, List.filter_append]

theorem tailStages_filter_push (env : Env) (b : String) (t : List Event) (p : Bool) :
    (tailStages env b t p).trace.filter isPushEv =
      t.filter isPushEv ++
        (if env.gitAddOk = false then [] else
          if env.commitOk then [Event.gitPush env.gitRemote b] else []) := by
  unfold tailStages
  repeat' split
  all_goals simp_all [isPushEv, List.filter_append]

/-- When `diff -r` returns 0 the publish command is never part of the
trace, on every control path of the script. -/
theorem publish_free_of_diffZero (env : Env) (h : env.diffCode = 0) :
    (mainRun env).trace.filter isPublishEv = [] := by
  unfold mainRun
  simp only [h]
  repeat' split
  all_goals simp_all [tailStages_filter_publish, isPublishEv, List.filter_append]

/-- When the change-detection block is reached with the temporary
directory present and `diff -r` returns a nonzero status, the publish
command appears in the trace exactly once, with `_build/html` as the tree
argument and the prompted ghp remote. -/
theorem publish_once_of_diffNonzero (env : Env) (hreach : reachHyp env)
    (htmp : (env.worktreeAddOk || env.tmpPreexists) = true)
    (hnz : env.diffCode ≠ 0) :
    (mainRun env).trace.filter isPublishEv = [Event.publish env.ghpRemote "_build/html"] := by
  obtain ⟨h1, h2, h3⟩ := hreach
  unfold mainRun
  simp only [h1, h2, h3, htmp]
  repeat' split
  all_goals simp_all [tailStages_filter_publish, isPublishEv, List.filter_append]

/-! ## Further trace characterizations used by the claims -/

/-- The publish command of the whole run, in closed form: it fires exactly
when the run reaches the change-detection block, the temporary directory is
present, and `diff -r` returned a nonzero status. -/
theorem mainRun_filter_publish (env : Env) :
    (mainRun env).trace.filter isPublishEv =
      (if env.branchExistsRes
          && !(decide (chosenBranch env = "main" ∧ env.confirmInput ≠ "confirm"))
          && env.jbBuildOk && (env.worktreeAddOk || env.tmpPreexists)
          && decide (env.diffCode ≠ 0)
        then [Event.publish env.ghpRemote "_build/html"] else []) := by
  unfold mainRun
  repeat' split
  all_goals simp_all [tailStages_filter_publish, isPublishEv, List.filter_append]

/-- Every run past the preamble performs exactly one `git worktree add`,
always of the fixed path and the fixed branch `gh-pages`. -/
theorem mainRun_filter_worktreeAdd (env : Env) (hreach : reachHyp env) :
    (mainRun env).trace.filter isWorktreeAddEv = [Event.worktreeAdd tmp_dir "gh-pages"] := by
  obtain ⟨h1, h2, h3⟩ := hreach
  unfold mainRun
  simp only [h1, h2, h3]
  repeat' split
  all_goals simp_all [tailStages_filter_worktreeAdd, isWorktreeAddEv, List.filter_append]

/-- Every run performs exactly one branch-existence check, on the chosen
branch. -/
theorem mainRun_filter_verify (env : Env) :
    (mainRun env).trace.filter isVerifyEv = [Event.gitVerify (chosenBranch env)] := by
  unfold mainRun
  repeat' split
  all_goals simp_all [tailStages_filter_verify, isVerifyEv, List.filter_append]

/-! ## The claims -/

/-- Claim C1: whenever the reference snapshot was created (the
`git worktree add` of line 96 succeeded) the cleanup of lines 109-110 is
reached in every outcome — published, skipped, and failing `ghp-import`
alike — and, given that the forced worktree removal behaves as forced
removal of a worktree this run created does (it succeeds), the `rmtree`
also runs and the temporary location is absent from the filesystem when
the procedure is done. -/
theorem c1_snapshot_always_cleaned (env : Env) (hreach : reachHyp env)
    (hadd : env.worktreeAddOk = true) (hrem : env.worktreeRemoveOk = true) :
    (mainRun env).trace.filter isWorktreeRemoveEv = [Event.worktreeRemove tmp_dir] ∧
    (mainRun env).trace.filter isRmtreeEv = [Event.rmtreeCall tmp_dir] ∧
    (mainRun env).tmpPresent = false := by
  obtain ⟨h1, h2, h3⟩ := hreach
  refine ⟨?_, ?_, ?_⟩ <;>
    (unfold mainRun
     simp only [h1, h2, h3, hadd, hrem]
     repeat' split
     all_goals simp_all [tailStages_filter_worktreeRemove, tailStages_filter_rmtree,
       tailStages_tmpPresent, isWorktreeRemoveEv, isRmtreeEv, List.filter_append])

/-- Witness for C1, on a run whose publish step fails: the cleanup still
runs and the temporary directory is gone. -/
theorem c1_witness :
    reachHyp { envBase with ghpImportOk := false } ∧
    ((mainRun { envBase with ghpImportOk := false }).trace.filter isWorktreeRemoveEv
        = [Event.worktreeRemove tmp_dir] ∧
      (mainRun { envBase with ghpImportOk := false }).trace.filter isRmtreeEv
        = [Event.rmtreeCall tmp_dir] ∧
      (mainRun { envBase with ghpImportOk := false }).tmpPresent = false) :=
  ⟨by decide, c1_snapshot_always_cleaned { envBase with ghpImportOk := false }
    (by decide) rfl rfl⟩

/-- Claim C2: two directory trees with identical relative paths and
identical file byte content — modification times may differ, they are not
part of `lookupPath` — make the structural comparison report no difference
(`diff -r` status 0), and a run whose diff observes these two trees never
invokes the publish operation. -/
theorem c2_identical_trees_skip_publish (t1 t2 : FSTree)
    (w1 : wfTree t1 = true) (w2 : wfTree t2 = true)
    (hsame : ∀ p, lookupPath t1 p = lookupPath t2 p)
    (env : Env) (hd : env.diffCode = diffInt t1 t2) :
    env.diffCode = 0 ∧ (mainRun env).trace.filter isPublishEv = [] := by
  have hdiff : diffTrees t1 t2 = true := lookup_eq_diffTrees t1 t2 w1 w2 hsame
  have h0 : env.diffCode = 0 := by rw [hd]; simp [diffInt, hdiff]
  exact ⟨h0, publish_free_of_diffZero env h0⟩

/-- A small canonical site tree; `wTreeB` differs from it only in the
mtime of `index.html`. -/
def wTreeA : FSTree :=
  FSTree.dir (Entries.cons "assets" (FSTree.dir Entries.nil)
    (Entries.cons "index.html" (FSTree.file [118, 49] 5) Entries.nil))

/-- Same paths and byte contents as `wTreeA`, different mtime. -/
def wTreeB : FSTree :=
  FSTree.dir (Entries.cons "assets" (FSTree.dir Entries.nil)
    (Entries.cons "index.html" (FSTree.file [118, 49] 99) Entries.nil))

/-- Run whose diff status is computed from the equal-content pair. -/
def envTreeEq : Env := { envBase with diffCode := diffInt wTreeA wTreeB }

/-- Witness for C2 at the concrete equal-content (different-mtime) pair. -/
theorem c2_witness :
    wfTree wTreeA = true ∧ wfTree wTreeB = true ∧
    (envTreeEq.diffCode = 0 ∧ (mainRun envTreeEq).trace.filter isPublishEv = []) :=
  ⟨by decide, by decide,
    c2_identical_trees_skip_publish wTreeA wTreeB (by decide) (by decide)
      (fun p => diffTrees_lookup_eq p wTreeA wTreeB (by decide)) envTreeEq rfl⟩

/-- Claim C3: two directory trees that differ at some relative path (a file
content difference, or a file or directory present on one side only) make
the comparison report a difference, and a run that reaches the comparison
with the snapshot present invokes the publish operation exactly once, on
`_build/html` (the freshly built output tree) with the prompted publish
remote. -/
theorem c3_differing_trees_publish_once (t1 t2 : FSTree) (pth : List String)
    (hne : lookupPath t1 pth ≠ lookupPath t2 pth)
    (env : Env) (hd : env.diffCode = diffInt t1 t2)
    (hreach : reachHyp env)
    (htmp : (env.worktreeAddOk || env.tmpPreexists) = true) :
    (mainRun env).trace.filter isPublishEv = [Event.publish env.ghpRemote "_build/html"] := by
  have hdiff : diffTrees t1 t2 = false := by
    cases hF : diffTrees t1 t2
    · rfl
    · exact absurd (diffTrees_lookup_eq pth t1 t2 hF) hne
  have h1 : env.diffCode ≠ 0 := by rw [hd]; simp [diffInt, hdiff]
  exact publish_once_of_diffNonzero env hreach htmp h1

/-- The build tree of the specification scenario for C3: `index.html`
plus a `new.html` the snapshot lacks. -/
def wTreeC : FSTree :=
  FSTree.dir (Entries.cons "index.html" (FSTree.file [118, 49] 0)
    (Entries.cons "new.html" (FSTree.file [120] 0) Entries.nil))

/-- The reference snapshot of the specification scenario for C3. -/
def wTreeD : FSTree :=
  FSTree.dir (Entries.cons "index.html" (FSTree.file [118, 49] 0) Entries.nil)

/-- Run whose diff status is computed from the differing pair. -/
def envTreeNe : Env := { envBase with diffCode := diffInt wTreeC wTreeD }

/-- Witness for C3 at the scenario pair from the specification. -/
theorem c3_witness :
    lookupPath wTreeC ["new.html"] ≠ lookupPath wTreeD ["new.html"] ∧
    reachHyp envTreeNe ∧
    (mainRun envTreeNe).trace.filter isPublishEv = [Event.publish "origin" "_build/html"] :=
  ⟨by decide, by decide,
    c3_differing_trees_publish_once wTreeC wTreeD ["new.html"] (by decide)
      envTreeNe rfl (by decide) rfl⟩

/-- Claim C4: when acquiring the snapshot fails and the temporary location
is absent, the change-detection block is a conservative no-op: no
comparison is run, nothing is published, no exception escapes the block,
and the run continues into the flick-planting stage. -/
theorem c4_no_snapshot_noop (env : Env) (hreach : reachHyp env)
    (hadd : env.worktreeAddOk = false) (hpre : env.tmpPreexists = false) :
    (mainRun env).trace.filter isDiffEv = [] ∧
    (mainRun env).trace.filter isPublishEv = [] ∧
    (mainRun env).trace.filter isPlantEv = [Event.plantFlicks] := by
  obtain ⟨h1, h2, h3⟩ := hreach
  refine ⟨?_, ?_, ?_⟩ <;>
    (unfold mainRun
     simp only [h1, h2, h3, hadd, hpre]
     repeat' split
     all_goals simp_all [tailStages_filter_diff, tailStages_filter_publish,
       tailStages_filter_plant, isDiffEv, isPublishEv, isPlantEv, List.filter_append])

/-- Witness for C4: the worktree add fails (no `gh-pages` yet) and the run
still goes on to the later stages. -/
theorem c4_witness :
    reachHyp { envBase with worktreeAddOk := false } ∧
    ((mainRun { envBase with worktreeAddOk := false }).trace.filter isDiffEv = [] ∧
      (mainRun { envBase with worktreeAddOk := false }).trace.filter isPublishEv = [] ∧
      (mainRun { envBase with worktreeAddOk := false }).trace.filter isPlantEv
        = [Event.plantFlicks]) :=
  ⟨by decide, c4_no_snapshot_noop { envBase with worktreeAddOk := false }
    (by decide) rfl rfl⟩

/-- Counterexample to C5 as stated: a run in which the target branch
exists, the confirmation gate is not involved and the build succeeds, yet
the process terminates with status 1, because the `ghp-import` failure
after a detected change is an uncaught exception.  So exit 1 does not
happen only in the three listed cases. -/
theorem c5_counterexample :
    { envBase with ghpImportOk := false }.branchExistsRes = true ∧
    ¬(chosenBranch { envBase with ghpImportOk := false } = "main" ∧
        { envBase with ghpImportOk := false }.confirmInput ≠ "confirm") ∧
    { envBase with ghpImportOk := false }.jbBuildOk = true ∧
    exitCode (mainRun { envBase with ghpImportOk := false }).outcome = 1 := by
  decide

/-- Amended claim C5: the process status is 1 exactly when the target
branch is missing, the `main` confirmation is declined, the build fails,
or an uncaught exception escapes `main` — a cleanup `git worktree remove`
failure, a `ghp-import` failure after a detected change, or a `git add`
failure; in every other run the status is 0. -/
theorem c5_exit_code_characterization (env : Env) :
    exitCode (mainRun env).outcome = (if fatalFailureB env then 1 else 0) := by
  unfold mainRun fatalFailureB
  repeat' split
  all_goals cases hga : env.gitAddOk <;>
    simp_all [tailStages_outcome, exitCode]

/-- Counterexample to C6 as stated: the bare `except:` around commit and
push also catches a push failure — the run ends normally (status 0) and
the handler prints its "Nothing committed" message, so a push failure is
not propagated to the caller. -/
theorem c6_counterexample :
    Event.gitPush "origin" "site" ∈ (mainRun { envBase with pushOk := false }).trace ∧
    Event.pushSkipMsg ∈ (mainRun { envBase with pushOk := false }).trace ∧
    (mainRun { envBase with pushOk := false }).outcome = Outcome.finished ∧
    exitCode (mainRun { envBase with pushOk := false }).outcome = 0 := by
  decide

/-- Amended claim C6: the blanket handler of the commit-and-push stage
catches every failure in the stage — a failing commit skips the push, and
a failing push is itself swallowed with only the "skipping push" message —
so no failure of that stage propagates: any run that reaches the stage
finishes normally, and the push is attempted exactly when the commit
succeeded. -/
theorem c6_commit_push_stage_never_propagates (env : Env) (hreach : reachHyp env)
    (hnoexc : ((env.worktreeAddOk || env.tmpPreexists)
        && (!env.worktreeRemoveOk || (decide (env.diffCode ≠ 0) && !env.ghpImportOk)))
      = false)
    (hga : env.gitAddOk = true) :
    (mainRun env).outcome = Outcome.finished ∧
    (mainRun env).trace.filter isPushEv =
      (if env.commitOk then [Event.gitPush env.gitRemote (chosenBranch env)] else []) := by
  obtain ⟨h1, h2, h3⟩ := hreach
  refine ⟨?_, ?_⟩ <;>
    (unfold mainRun
     simp only [h1, h2, h3, hga]
     repeat' split
     all_goals simp_all [tailStages_outcome, tailStages_filter_push, isPushEv,
       List.filter_append])

/-- Witness for the amended C6, on the run whose push fails. -/
theorem c6_witness :
    reachHyp { envBase with pushOk := false } ∧
    ((mainRun { envBase with pushOk := false }).outcome = Outcome.finished ∧
      (mainRun { envBase with pushOk := false }).trace.filter isPushEv =
        (if ({ envBase with pushOk := false } : Env).commitOk
          then [Event.gitPush "origin" "site"] else [])) :=
  ⟨by decide, c6_commit_push_stage_never_propagates { envBase with pushOk := false }
    (by decide) rfl rfl⟩

/-- Inputs that name every remote and branch differently from `gh-pages`:
the push remote is `upstream`, the publish remote is `mirror`, the chosen
branch is `site`. -/
def envOtherNames : Env :=
  { envBase with
    gitRemote := "upstream"
    ghpRemote := "mirror"
    branchInput := some "site" }

/-- Counterexample to C7 as stated: with every supplied name different
from `gh-pages`, the single worktree-add of the run still binds the
literal branch `gh-pages` — the branch compared against is a fixed
constant, not one named by the procedure inputs. -/
theorem c7_counterexample :
    (mainRun envOtherNames).trace.filter isWorktreeAddEv
      = [Event.worktreeAdd tmp_dir "gh-pages"] ∧
    chosenBranch envOtherNames = "site" ∧
    envOtherNames.ghpRemote = "mirror" ∧
    envOtherNames.gitRemote = "upstream" := by
  decide

/-- Amended claim C7: step 1 always materializes the fixed branch
`gh-pages` at the fixed path `/tmp/temp-ghp-check`; of the procedure
inputs only the publish remote reaches the publish command (whose tree
argument is always `_build/html`). -/
theorem c7_snapshot_branch_fixed (env : Env) (hreach : reachHyp env) :
    (mainRun env).trace.filter isWorktreeAddEv = [Event.worktreeAdd tmp_dir "gh-pages"] ∧
    ((mainRun env).trace.filter isPublishEv = [] ∨
      (mainRun env).trace.filter isPublishEv = [Event.publish env.ghpRemote "_build/html"]) := by
  refine ⟨mainRun_filter_worktreeAdd env hreach, ?_⟩
  rw [mainRun_filter_publish env]
  split
  · exact Or.inr rfl
  · exact Or.inl rfl

/-- Witness for the amended C7 at the all-different-names run. -/
theorem c7_witness :
    reachHyp envOtherNames ∧
    ((mainRun envOtherNames).trace.filter isWorktreeAddEv
        = [Event.worktreeAdd tmp_dir "gh-pages"] ∧
      ((mainRun envOtherNames).trace.filter isPublishEv = [] ∨
        (mainRun envOtherNames).trace.filter isPublishEv
          = [Event.publish "mirror" "_build/html"])) :=
  ⟨by decide, c7_snapshot_branch_fixed envOtherNames (by decide)⟩

/-- Claim C8: a declined `main` confirmation exits with status 1 and the
trace consists of exactly the two read-only branch queries (the
current-branch query feeding the prompt default and the branch-existence
check) — no other command, in particular nothing destructive, has run. -/
theorem c8_declined_main_confirmation (env : Env)
    (hb : chosenBranch env = "main") (he : env.branchExistsRes = true)
    (hc : env.confirmInput ≠ "confirm") :
    (mainRun env).trace = [Event.gitCurrentBranch, Event.gitVerify "main"] ∧
    (mainRun env).outcome = Outcome.exited 1 := by
  unfold mainRun
  simp [he, hb, hc]

/-- Witness for C8: the user types `main` at the branch prompt and an
empty string at the confirmation. -/
theorem c8_witness :
    chosenBranch { envBase with branchInput := some "main" } = "main" ∧
    ({ envBase with branchInput := some "main" } : Env).confirmInput ≠ "confirm" ∧
    ((mainRun { envBase with branchInput := some "main" }).trace
        = [Event.gitCurrentBranch, Event.gitVerify "main"] ∧
      (mainRun { envBase with branchInput := some "main" }).outcome = Outcome.exited 1) :=
  ⟨by decide, by decide,
    c8_declined_main_confirmation { envBase with branchInput := some "main" }
      (by decide) rfl (by decide)⟩

/-- Claim C9: once the comparison stage is reached with the snapshot
present, the publish decision depends only on whether the integer diff
status equals 0 — any nonzero status, including status 2 with which the
diff tool reports trouble, triggers exactly one publish. -/
theorem c9_publish_iff_nonzero_status (env : Env) (hreach : reachHyp env)
    (htmp : (env.worktreeAddOk || env.tmpPreexists) = true) :
    publishCount env = (if env.diffCode = 0 then 0 else 1) := by
  by_cases hz : env.diffCode = 0
  · simp [publishCount, publish_free_of_diffZero env hz, hz]
  · simp [publishCount, publish_once_of_diffNonzero env hreach htmp hz, hz]

/-- Witness for C9 at diff status 2 (the status `diff` uses for trouble,
e.g. an unreadable file): the publish operation still fires. -/
theorem c9_witness :
    reachHyp { envBase with diffCode := 2 } ∧
    ({ envBase with diffCode := 2 } : Env).diffCode ≠ 0 ∧
    publishCount { envBase with diffCode := 2 } = 1 :=
  ⟨by decide, by decide, by
    have h := c9_publish_iff_nonzero_status { envBase with diffCode := 2 }
      (by decide) rfl
    simpa using h⟩

/-- Claim C10: when the current-branch query returns the empty string
(detached HEAD), the Python `or` makes the offered default the literal
`main`, and accepting the default makes the run check the branch `main`. -/
theorem c10_empty_query_defaults_main (env : Env)
    (hq : env.currentBranchOut = "") :
    promptDefaultBranch env = "main" ∧
    (env.branchInput = none →
      chosenBranch env = "main" ∧
      (mainRun env).trace.filter isVerifyEv = [Event.gitVerify "main"]) := by
  have hd : promptDefaultBranch env = "main" := by
    simp [promptDefaultBranch, pyOrStr, hq]
  refine ⟨hd, fun hi => ?_⟩
  have hcb : chosenBranch env = "main" := by simp [chosenBranch, hi, hd]
  rw [mainRun_filter_verify env, hcb]
  exact ⟨rfl, rfl⟩

/-- Witness for C10 on a detached-HEAD run. -/
theorem c10_witness :
    ({ envBase with currentBranchOut := "" } : Env).currentBranchOut = "" ∧
    (promptDefaultBranch { envBase with currentBranchOut := "" } = "main" ∧
      (({ envBase with currentBranchOut := "" } : Env).branchInput = none →
        chosenBranch { envBase with currentBranchOut := "" } = "main" ∧
        (mainRun { envBase with currentBranchOut := "" }).trace.filter isVerifyEv
          = [Event.gitVerify "main"])) :=
  ⟨rfl, c10_empty_query_defaults_main { envBase with currentBranchOut := "" } rfl⟩

end Deploy
